import Mathlib

/-!
Verification development for the oceanstream Sv interpolation / regridding
engine and its callers.

The repository ships the tests of the interpolation engine
(`tests/test_sv_interpolation.py`) together with two caller modules
(`oceanstream/echodata/sv_dataset_extension.py` and
`oceanstream/denoise/background_noise_remover.py`).  The engine module
`oceanstream/echodata/sv_interpolation.py` itself is not part of the
source tree, so its operations are modelled here from the specification
document; the two caller modules are embedded from their source.

Modelling conventions:
  * floating-point values are modelled as real numbers; a NaN is `none`
    in `Option ℝ` (abbreviated `EVal`);
  * an xarray dataset is a record of named variables, named coordinate
    arrays, named dimensions (with their sizes) and string attributes;
  * the canonical layout of a three-dimensional array is
    channel × range_sample × ping_time;
  * raised Python exceptions are `Except` errors.
-/

/-- A floating-point scalar: `none` models NaN, `some x` a finite value. -/
abbrev EVal := Option ℝ

/-- A one-dimensional series along the ping_time axis. -/
abbrev Series := List EVal

/-- A per-channel grid: range_sample × ping_time. -/
abbrev Grid2 := List Series

/-- A three-dimensional float array: channel × range_sample × ping_time. -/
abbrev Arr3 := List Grid2

/-- A three-dimensional boolean array with the same layout as `Arr3`. -/
abbrev BArr3 := List (List (List Bool))

/-- Payload of one dataset variable: a float array or a boolean (mask) array. -/
inductive VarData where
  | farr (a : Arr3)
  | barr (b : BArr3)

/-- Shallow embedding of an xarray `Dataset`: named data variables, named
coordinate arrays, named dimensions with their sizes, and attributes. -/
structure Dataset where
  data_vars : List (String × VarData)
  coords : List (String × List EVal)
  dims : List (String × Nat)
  attrs : List (String × String)

/-- Lookup of the first entry with the given name in an association list. -/
def getEntry? {α : Type} : List (String × α) → String → Option α
  | [], _ => none
  | p :: t, n => if p.1 = n then some p.2 else getEntry? t n

/-- Dictionary-style update: replace the first entry with the given name,
or append a new entry when the name is absent. -/
def setEntry {α : Type} : List (String × α) → String → α → List (String × α)
  | [], n, v => [(n, v)]
  | p :: t, n, v => if p.1 = n then (n, v) :: t else p :: setEntry t n v

/-- The list of names of an association list, in order. -/
def entryKeys {α : Type} (l : List (String × α)) : List String := l.map (fun p => p.1)

/-- Whether the string `s` ends with the string `p`, computed on the
character lists. -/
def strEndsWith (s p : String) : Bool := List.isPrefixOf p.data.reverse s.data.reverse

/-- Whether the string `s` starts with the string `p`, computed on the
character lists. -/
def strStartsWith (s p : String) : Bool := List.isPrefixOf p.data s.data

/-- Store a data variable in a dataset (xarray item assignment). -/
def setVar (d : Dataset) (n : String) (v : VarData) : Dataset :=
  { d with data_vars := setEntry d.data_vars n v }

/-- Store a coordinate array in a dataset (xarray `assign_coords`). -/
def setCoord (d : Dataset) (n : String) (v : List EVal) : Dataset :=
  { d with coords := setEntry d.coords n v }

/-- The float array stored under a variable name, `[]` when absent
or not a float array. -/
def getVarArrD (d : Dataset) (n : String) : Arr3 :=
  match getEntry? d.data_vars n with
  | some (.farr a) => a
  | _ => []

/-- The `Sv` float array of a dataset. -/
def getSvArr (d : Dataset) : Arr3 := getVarArrD d "Sv"

/-! ## Domain converter (spec 4.3) -/

/-- Modelled from the spec: the Domain Converter's `toLinear(x) = 10^(x/10)`
(`db_to_linear` in `sv_interpolation.py`, absent from the tree), elementwise
on a NaN-able scalar; NaN maps to NaN. -/
noncomputable def db_to_linear (x : EVal) : EVal :=
  x.map (fun v => (10 : ℝ) ^ (v / 10))

/-- Modelled from the spec: the Domain Converter's `toDecibel(x) = 10·log10(x)`
(`linear_to_db` in `sv_interpolation.py`, absent from the tree), elementwise on
a NaN-able scalar; a non-positive input has no logarithm and maps to NaN, and
NaN maps to NaN. -/
noncomputable def linear_to_db (x : EVal) : EVal :=
  x.bind (fun v => if v ≤ 0 then none else some (10 * Real.logb 10 v))

theorem db_to_linear_none : db_to_linear none = none := rfl

theorem db_to_linear_some (v : ℝ) :
    db_to_linear (some v) = some ((10 : ℝ) ^ (v / 10)) := rfl

theorem linear_to_db_none : linear_to_db none = none := rfl

theorem db_to_linear_pos (v : ℝ) : 0 < (10 : ℝ) ^ (v / 10) :=
  Real.rpow_pos_of_pos (by norm_num) _

theorem linear_to_db_of_pos {v : ℝ} (hv : 0 < v) :
    linear_to_db (some v) = some (10 * Real.logb 10 v) := by
  simp [linear_to_db, not_le.mpr hv]

/-- C3: the decibel → linear → decibel round trip is the identity on every
finite value: in the real-number model `linear_to_db (db_to_linear x) = x`
holds exactly, hence in particular within the tolerance `1e-8` the
specification allows for floating point. -/
theorem C3_round_trip (x : ℝ) :
    linear_to_db (db_to_linear (some x)) = some x ∧
      ∀ y : ℝ, linear_to_db (db_to_linear (some x)) = some y → |y - x| ≤ 1e-8 := by
  have hpos : 0 < (10 : ℝ) ^ (x / 10) := db_to_linear_pos x
  have hlog : Real.logb 10 ((10 : ℝ) ^ (x / 10)) = x / 10 :=
    Real.logb_rpow (by norm_num) (by norm_num)
  have hmain : linear_to_db (db_to_linear (some x)) = some x := by
    rw [db_to_linear_some, linear_to_db_of_pos hpos, hlog]
    ring_nf
  refine ⟨hmain, fun y hy => ?_⟩
  rw [hmain] at hy
  have : y = x := by injection hy.symm
  rw [this]
  norm_num

/-- Witness for C3 at the concrete input `x = 30`. -/
theorem C3_round_trip_witness :
    linear_to_db (db_to_linear (some (30 : ℝ))) = some (30 : ℝ) :=
  (C3_round_trip 30).1

/-- C8: `db_to_linear` maps NaN to NaN, and `linear_to_db` maps every
non-positive input (zero included) to NaN. -/
theorem C8_nan_policy :
    db_to_linear none = none ∧
      ∀ v : ℝ, v ≤ 0 → linear_to_db (some v) = none := by
  refine ⟨rfl, fun v hv => ?_⟩
  simp [linear_to_db, hv]

/-- Witness for C8 at the concrete non-positive input `v = 0`. -/
theorem C8_nan_policy_witness :
    db_to_linear none = none ∧ linear_to_db (some (0 : ℝ)) = none :=
  ⟨C8_nan_policy.1, C8_nan_policy.2 0 le_rfl⟩

/-! ## Gap interpolator (spec 4.4) -/

/-- The supported interpolation method selectors. -/
inductive InterpMethod where
  | linear
  | nearest

/-- The valid (non-NaN) entries of a series, tagged with their indices,
the first index being `k`. -/
def validsFrom : Nat → Series → List (Nat × ℝ)
  | _, [] => []
  | k, none :: t => validsFrom (k + 1) t
  | k, some v :: t => (k, v) :: validsFrom (k + 1) t

/-- The valid (non-NaN) entries of a series, tagged with their indices. -/
def valids (xs : Series) : List (Nat × ℝ) := validsFrom 0 xs

/-- The nearest valid entry at an index at most `i`. -/
def prevValid (xs : Series) (i : Nat) : Option (Nat × ℝ) :=
  ((valids xs).filter (fun p => p.1 ≤ i)).getLast?

/-- The nearest valid entry at an index at least `i`. -/
def nextValid (xs : Series) (i : Nat) : Option (Nat × ℝ) :=
  ((valids xs).filter (fun p => i ≤ p.1)).head?

/-- Modelled from the spec: the value the Gap Interpolator assigns at
position `i` of a one-dimensional series (`sv_interpolation.py` is absent
from the tree).  A valid sample keeps its value; an invalid sample between
two valid neighbors is filled piecewise-linearly (method `linear`) or with
the closest neighbor, ties toward the preceding index (method `nearest`);
an invalid sample with a single-sided valid neighbor takes that neighbor's
value (the concrete scenario of spec section 8: a masked boundary entry
with one valid neighbor is filled); a series with no valid sample stays
NaN throughout. -/
noncomputable def interpAt (m : InterpMethod) (xs : Series) (i : Nat) : EVal :=
  match xs.getD i none with
  | some v => some v
  | none =>
    match prevValid xs i, nextValid xs i with
    | some (j, a), some (k, b) =>
      match m with
      | .linear => some (a + (b - a) * ((i : ℝ) - (j : ℝ)) / ((k : ℝ) - (j : ℝ)))
      | .nearest => some (if i - j ≤ k - i then a else b)
    | some (_, a), none => some a
    | none, some (_, b) => some b
    | none, none => none

/-- One-dimensional gap interpolation of a whole series. -/
noncomputable def interp1d (m : InterpMethod) (xs : Series) : Series :=
  (List.range xs.length).map (interpAt m xs)

/-- Forward fill with the carried last valid value. -/
def ffillGo : EVal → Series → Series
  | _, [] => []
  | carry, none :: t => carry :: ffillGo carry t
  | _, some v :: t => some v :: ffillGo (some v) t

/-- Modelled from the spec: edge fill step, forward direction — extend the
nearest valid value over trailing NaN runs. -/
def ffill (xs : Series) : Series := ffillGo none xs

/-- Modelled from the spec: edge fill step, backward direction. -/
def bfill (xs : Series) : Series := (ffill xs.reverse).reverse

/-- Per-channel interpolation: every range bin's ping_time series is gap
filled; when edge fill is requested, boundary NaN runs are additionally
extended from the nearest valid value. -/
noncomputable def interpolate_channel (m : InterpMethod) (edge : Bool) (g : Grid2) : Grid2 :=
  g.map (fun row =>
    let r := interp1d m row
    if edge then bfill (ffill r) else r)

/-! ## Mask accessor (spec 4.2) -/

/-- The boolean payload of a variable, when it is a mask array. -/
def asBoolArr : VarData → Option BArr3
  | .barr b => some b
  | .farr _ => none

/-- Modelled from the spec: all attached masks — the boolean variables whose
name starts with `mask_`. -/
def maskList (d : Dataset) : List BArr3 :=
  d.data_vars.filterMap (fun p => if strStartsWith p.1 "mask_" then asBoolArr p.2 else none)

/-- Pointwise OR of two mask arrays. -/
def orMask2 (a b : BArr3) : BArr3 :=
  List.zipWith (fun ga gb => List.zipWith (fun ra rb => List.zipWith (fun x y => x || y) ra rb) ga gb) a b

/-- Modelled from the spec: the OR-combination of all attached masks;
`none` when no mask is attached. -/
def combinedMask (d : Dataset) : Option BArr3 :=
  match maskList d with
  | [] => none
  | h :: t => some (t.foldl orMask2 h)

/-- Modelled from the spec: apply a mask to the Sv array — every flagged
sample becomes NaN. -/
def apply_mask (sv : Arr3) (m : BArr3) : Arr3 :=
  List.zipWith (fun g mg =>
    List.zipWith (fun row mrow =>
      List.zipWith (fun v b => if b then none else v) row mrow) g mg) sv m

/-! ## Loader, validation and the interpolation entry point (spec 4.1, 4.4) -/

/-- The errors raised by the engine: Python `FileNotFoundError`,
`KeyError` and `ValueError`, and the ungriddable-channel error. -/
inductive SvError where
  | fileNotFound
  | keyError (k : String)
  | valueError (msg : String)
  | overflowError (msg : String)
  | ungriddable

/-- The argument of `interpolate_sv`: an in-memory dataset or a path. -/
inductive SvInput where
  | ds (d : Dataset)
  | path (p : String)

/-- Modelled from the spec: the Dataset Loader. The contents of the
filesystem are abstracted as an association list from paths to the datasets
stored there; a path is loadable only when it names one of the two
supported container formats (a `.nc` single-file container or a `.zarr`
directory store) and is present on the filesystem. -/
def load_input (fs : List (String × Dataset)) : SvInput → Except SvError Dataset
  | .ds d => .ok d
  | .path p =>
    if strEndsWith p ".nc" || strEndsWith p ".zarr" then
      match getEntry? fs p with
      | some d => .ok d
      | none => .error .fileNotFound
    else .error .fileNotFound

/-- Modelled from the spec: structural validation before any numeric work —
the dataset must carry an `Sv` variable and a `channel` dimension. -/
def validate_structure (d : Dataset) : Except SvError Unit :=
  if (getEntry? d.data_vars "Sv").isNone then .error (.keyError "Sv")
  else if (getEntry? d.dims "channel").isNone then .error (.keyError "channel")
  else .ok ()

/-- Modelled from the spec: the Sv array with every sample flagged by the
OR of all attached masks replaced by NaN; when no mask is attached the Sv
array is used exactly as given. -/
def masked_sv (d : Dataset) : Arr3 :=
  match combinedMask d with
  | some mk => apply_mask (getSvArr d) mk
  | none => getSvArr d

/-- Modelled from the spec: the interpolated Sv array — convert the masked
Sv to linear power, gap fill each channel's ping_time series per range
bin, and convert back to decibels. -/
noncomputable def interp_arr (d : Dataset) (m : InterpMethod) (edge : Bool) : Arr3 :=
  (((masked_sv d).map (fun g => g.map (fun row => row.map db_to_linear))).map
      (interpolate_channel m edge)).map
    (fun g => g.map (fun row => row.map linear_to_db))

/-- Modelled from the spec: the numeric core of `interpolate_sv` — store the
interpolated array as the variable `Sv_interpolated`, leaving every other
entry of the dataset as it was. -/
noncomputable def interp_core (d : Dataset) (m : InterpMethod) (edge : Bool) : Dataset :=
  setVar d "Sv_interpolated" (.farr (interp_arr d m edge))

/-- Modelled from the spec: `interpolate_sv` — load the input, validate its
structure, then run the numeric core. -/
noncomputable def interpolate_sv (fs : List (String × Dataset)) (inp : SvInput)
    (m : InterpMethod) (edge : Bool) : Except SvError Dataset :=
  match load_input fs inp with
  | .error er => .error er
  | .ok d =>
    match validate_structure d with
    | .error er => .error er
    | .ok _ => .ok (interp_core d m edge)

/-! ## Association-list frame lemmas -/

theorem getEntry?_setEntry_self {α : Type} (l : List (String × α)) (n : String) (v : α) :
    getEntry? (setEntry l n v) n = some v := by
  induction l with
  | nil => simp [setEntry, getEntry?]
  | cons p t ih =>
    by_cases h : p.1 = n
    · simp [setEntry, getEntry?, h]
    · simp [setEntry, getEntry?, h, ih]

theorem getEntry?_setEntry_ne {α : Type} (l : List (String × α)) (n n' : String) (v : α)
    (h : n' ≠ n) : getEntry? (setEntry l n v) n' = getEntry? l n' := by
  induction l with
  | nil => simp [setEntry, getEntry?, Ne.symm h]
  | cons p t ih =>
    by_cases hp : p.1 = n
    · subst hp
      simp only [setEntry, if_pos rfl, getEntry?, if_neg (Ne.symm h)]
    · simp only [setEntry, if_neg hp, getEntry?, ih]

theorem entryKeys_setEntry_of_present {α : Type} (l : List (String × α)) (n : String) (v : α)
    (h : (getEntry? l n).isSome = true) : entryKeys (setEntry l n v) = entryKeys l := by
  induction l with
  | nil => simp [getEntry?] at h
  | cons p t ih =>
    by_cases hp : p.1 = n
    · simp [setEntry, entryKeys, hp]
    · simp only [getEntry?, hp, if_false] at h
      have hih := ih h
      simp only [entryKeys] at hih
      simp [setEntry, entryKeys, hp, hih]

/-! ## All-NaN preservation (spec 4.4 edge-case policy) -/

/-- A series is entirely NaN. -/
def rowAllNaN (r : Series) : Bool := r.all (fun v => v.isNone)

/-- A channel grid is entirely NaN. -/
def gridAllNaN (g : Grid2) : Bool := g.all rowAllNaN

/-- A three-dimensional array is entirely NaN. -/
def arrAllNaN (a : Arr3) : Bool := a.all gridAllNaN

theorem rowAllNaN_getD {r : Series} (h : rowAllNaN r = true) (i : Nat) :
    r.getD i none = none := by
  induction r generalizing i with
  | nil => simp [List.getD]
  | cons x t ih =>
    simp only [rowAllNaN, List.all_cons, Bool.and_eq_true] at h
    cases i with
    | zero =>
      cases x with
      | none => rfl
      | some v => simp at h
    | succ j =>
      simpa using ih (by simpa [rowAllNaN] using h.2) j

theorem validsFrom_allNone {r : Series} (h : rowAllNaN r = true) (k : Nat) :
    validsFrom k r = [] := by
  induction r generalizing k with
  | nil => rfl
  | cons x t ih =>
    simp only [rowAllNaN, List.all_cons, Bool.and_eq_true] at h
    cases x with
    | none => exact ih (by simpa [rowAllNaN] using h.2) (k + 1)
    | some v => simp at h

theorem interpAt_allNone {r : Series} (h : rowAllNaN r = true)
    (m : InterpMethod) (i : Nat) : interpAt m r i = none := by
  have hv : valids r = [] := validsFrom_allNone h 0
  simp only [interpAt, rowAllNaN_getD h, prevValid, nextValid, hv, List.filter_nil,
    List.getLast?_nil, List.head?_nil]

theorem interp1d_allNone {r : Series} (h : rowAllNaN r = true) (m : InterpMethod) :
    rowAllNaN (interp1d m r) = true := by
  simp only [rowAllNaN, List.all_eq_true]
  intro v hv
  obtain ⟨j, _, rfl⟩ := List.mem_map.mp hv
  simp [interpAt_allNone h]

theorem ffillGo_allNone {r : Series} (h : rowAllNaN r = true) :
    rowAllNaN (ffillGo none r) = true := by
  induction r with
  | nil => rfl
  | cons x t ih =>
    simp only [rowAllNaN, List.all_cons, Bool.and_eq_true] at h
    obtain ⟨h1, h2⟩ := h
    cases x with
    | none =>
      simp only [ffillGo, rowAllNaN, List.all_cons]
      exact by simpa [rowAllNaN] using ih (by simpa [rowAllNaN] using h2)
    | some v => simp at h1

theorem ffill_allNone {r : Series} (h : rowAllNaN r = true) :
    rowAllNaN (ffill r) = true := ffillGo_allNone h

theorem rowAllNaN_reverse {r : Series} (h : rowAllNaN r = true) :
    rowAllNaN r.reverse = true := by
  simpa [rowAllNaN] using h

theorem bfill_allNone {r : Series} (h : rowAllNaN r = true) :
    rowAllNaN (bfill r) = true :=
  rowAllNaN_reverse (ffill_allNone (rowAllNaN_reverse h))

theorem rowAllNaN_map_db_to_linear {r : Series} (h : rowAllNaN r = true) :
    rowAllNaN (r.map db_to_linear) = true := by
  simp only [rowAllNaN, List.all_map, List.all_eq_true] at h ⊢
  intro v hv
  have := h v hv
  cases v with
  | none => rfl
  | some x => simp at this

theorem rowAllNaN_map_linear_to_db {r : Series} (h : rowAllNaN r = true) :
    rowAllNaN (r.map linear_to_db) = true := by
  simp only [rowAllNaN, List.all_map, List.all_eq_true] at h ⊢
  intro v hv
  have := h v hv
  cases v with
  | none => rfl
  | some x => simp at this

theorem gridAllNaN_map_db_to_linear {g : Grid2} (h : gridAllNaN g = true) :
    gridAllNaN (g.map (fun row => row.map db_to_linear)) = true := by
  simp only [gridAllNaN, List.all_map, List.all_eq_true] at h ⊢
  exact fun r hr => rowAllNaN_map_db_to_linear (h r hr)

theorem gridAllNaN_map_linear_to_db {g : Grid2} (h : gridAllNaN g = true) :
    gridAllNaN (g.map (fun row => row.map linear_to_db)) = true := by
  simp only [gridAllNaN, List.all_map, List.all_eq_true] at h ⊢
  exact fun r hr => rowAllNaN_map_linear_to_db (h r hr)

theorem interpolate_channel_allNone {g : Grid2} (h : gridAllNaN g = true)
    (m : InterpMethod) (e : Bool) :
    gridAllNaN (interpolate_channel m e g) = true := by
  simp only [gridAllNaN, interpolate_channel, List.all_map, List.all_eq_true] at h ⊢
  intro r hr
  cases e with
  | false => simpa using interp1d_allNone (h r hr) m
  | true => simpa using bfill_allNone (ffill_allNone (interp1d_allNone (h r hr) m))

theorem rowAllNaN_mask {r : Series} (mr : List Bool) (h : rowAllNaN r = true) :
    rowAllNaN (List.zipWith (fun v b => if b then none else v) r mr) = true := by
  induction r generalizing mr with
  | nil => simp [rowAllNaN]
  | cons x t ih =>
    cases mr with
    | nil => simp [rowAllNaN]
    | cons b u =>
      simp only [rowAllNaN, List.all_cons, Bool.and_eq_true] at h
      simp only [List.zipWith_cons_cons, rowAllNaN, List.all_cons, Bool.and_eq_true]
      constructor
      · cases b with
        | true => rfl
        | false => simpa using h.1
      · simpa [rowAllNaN] using ih u (by simpa [rowAllNaN] using h.2)

theorem gridAllNaN_mask {g : Grid2} (mg : List (List Bool)) (h : gridAllNaN g = true) :
    gridAllNaN (List.zipWith (fun row mrow =>
      List.zipWith (fun v b => if b then none else v) row mrow) g mg) = true := by
  induction g generalizing mg with
  | nil => simp [gridAllNaN]
  | cons r t ih =>
    cases mg with
    | nil => simp [gridAllNaN]
    | cons mr mu =>
      simp only [gridAllNaN, List.all_cons, Bool.and_eq_true] at h
      simp only [List.zipWith_cons_cons, gridAllNaN, List.all_cons, Bool.and_eq_true]
      exact ⟨rowAllNaN_mask mr h.1, by simpa [gridAllNaN] using ih mu (by simpa [gridAllNaN] using h.2)⟩

theorem getD_map_of_nil {α β : Type} (f : α → β) (l : List α) (c : Nat)
    (da : α) (db : β) (hf : f da = db) : (l.map f).getD c db = f (l.getD c da) := by
  induction l generalizing c with
  | nil => simp [List.getD, hf.symm]
  | cons x t ih =>
    cases c with
    | zero => rfl
    | succ j => simpa using ih j

theorem getD_zipWith_mask {a : Arr3} (b : BArr3) (c : Nat)
    (h : gridAllNaN (a.getD c []) = true) :
    gridAllNaN ((apply_mask a b).getD c []) = true := by
  induction a generalizing b c with
  | nil => simp [apply_mask, List.getD, gridAllNaN]
  | cons g t ih =>
    cases b with
    | nil => simp [apply_mask, List.getD, gridAllNaN]
    | cons mg mu =>
      cases c with
      | zero =>
        simpa [apply_mask] using gridAllNaN_mask mg (by simpa using h)
      | succ j =>
        simpa [apply_mask] using ih mu j (by simpa using h)

theorem arrAllNaN_iff_getD (a : Arr3) :
    arrAllNaN a = true ↔ ∀ c, gridAllNaN (a.getD c []) = true := by
  induction a with
  | nil => simp [arrAllNaN, List.getD, gridAllNaN]
  | cons g t ih =>
    simp only [arrAllNaN, List.all_cons, Bool.and_eq_true]
    constructor
    · rintro ⟨hg, ht⟩ c
      cases c with
      | zero => simpa using hg
      | succ j => simpa using (ih.mp ht) j
    · intro h
      refine ⟨by simpa using h 0, ih.mpr (fun c => by simpa using h (c + 1))⟩

/-! ## Frame properties of the interpolation core -/

theorem interp_core_svI (d : Dataset) (m : InterpMethod) (e : Bool) :
    getVarArrD (interp_core d m e) "Sv_interpolated" = interp_arr d m e := by
  simp [interp_core, getVarArrD, setVar, getEntry?_setEntry_self]

theorem interp_core_coords (d : Dataset) (m : InterpMethod) (e : Bool) :
    (interp_core d m e).coords = d.coords := rfl

theorem interp_core_dims (d : Dataset) (m : InterpMethod) (e : Bool) :
    (interp_core d m e).dims = d.dims := rfl

theorem interp_core_attrs (d : Dataset) (m : InterpMethod) (e : Bool) :
    (interp_core d m e).attrs = d.attrs := rfl

theorem interp_core_other_vars (d : Dataset) (m : InterpMethod) (e : Bool)
    (n : String) (h : n ≠ "Sv_interpolated") :
    getEntry? (interp_core d m e).data_vars n = getEntry? d.data_vars n := by
  simp only [interp_core, setVar]
  exact getEntry?_setEntry_ne d.data_vars "Sv_interpolated" n _ h

theorem interp_core_new_var (d : Dataset) (m : InterpMethod) (e : Bool) :
    getEntry? (interp_core d m e).data_vars "Sv_interpolated"
      = some (.farr (interp_arr d m e)) := by
  simp only [interp_core, setVar]
  exact getEntry?_setEntry_self d.data_vars "Sv_interpolated" _

theorem interpolate_sv_ok (d : Dataset) (m : InterpMethod) (e : Bool)
    (h1 : (getEntry? d.data_vars "Sv").isSome = true)
    (h2 : (getEntry? d.dims "channel").isSome = true) :
    interpolate_sv [] (.ds d) m e = .ok (interp_core d m e) := by
  obtain ⟨v, hv⟩ := Option.isSome_iff_exists.mp h1
  obtain ⟨w, hw⟩ := Option.isSome_iff_exists.mp h2
  simp [interpolate_sv, load_input, validate_structure, hv, hw]

theorem interpolate_sv_ok_inv (d : Dataset) (m : InterpMethod) (e : Bool) (d' : Dataset)
    (h : interpolate_sv [] (.ds d) m e = .ok d') : d' = interp_core d m e := by
  simp only [interpolate_sv, load_input] at h
  cases hv : validate_structure d with
  | error er => rw [hv] at h; exact absurd h (by simp)
  | ok u => rw [hv] at h; injection h with h; exact h.symm

/-- C2 (amended): for every accepted input, `interpolate_sv` stores its
result as the variable `Sv_interpolated`, leaves the original `Sv`
untouched, and leaves every other variable apart from a possible
pre-existing `Sv_interpolated`, every coordinate, every dimension and the
dataset attributes identical to the input's. -/
theorem C2_frame (d : Dataset) (m : InterpMethod) (e : Bool) (d' : Dataset)
    (h : interpolate_sv [] (.ds d) m e = .ok d') :
    getEntry? d'.data_vars "Sv" = getEntry? d.data_vars "Sv"
    ∧ (∀ n, n ≠ "Sv_interpolated" → getEntry? d'.data_vars n = getEntry? d.data_vars n)
    ∧ d'.coords = d.coords
    ∧ d'.dims = d.dims
    ∧ d'.attrs = d.attrs
    ∧ (getEntry? d'.data_vars "Sv_interpolated").isSome = true := by
  have hd : d' = interp_core d m e := interpolate_sv_ok_inv d m e d' h
  subst hd
  refine ⟨interp_core_other_vars d m e "Sv" (by decide),
    fun n hn => interp_core_other_vars d m e n hn, rfl, rfl, rfl, ?_⟩
  rw [interp_core_new_var]
  rfl

/-- A concrete dataset already carrying a variable named `Sv_interpolated`. -/
def dsPreexisting : Dataset :=
  ⟨[("Sv", .farr [[[none]]]), ("Sv_interpolated", .barr [])], [],
   [("channel", 1), ("ping_time", 1)], []⟩

/-- Counterexample to C2 as stated: on a dataset that already carries a
variable named `Sv_interpolated` (a non-`Sv` variable), `interpolate_sv`
overwrites it, so not every non-`Sv` variable of the output is identical
to the input's. -/
theorem C2_counterexample :
    interpolate_sv [] (.ds dsPreexisting) .linear false
        = .ok (interp_core dsPreexisting .linear false)
    ∧ getEntry? (interp_core dsPreexisting .linear false).data_vars "Sv_interpolated"
        ≠ getEntry? dsPreexisting.data_vars "Sv_interpolated" := by
  refine ⟨interpolate_sv_ok dsPreexisting .linear false rfl rfl, ?_⟩
  rw [interp_core_new_var]
  have hpre : getEntry? dsPreexisting.data_vars "Sv_interpolated" = some (.barr []) := rfl
  rw [hpre]
  intro hcontra
  injection hcontra with hcontra
  exact VarData.noConfusion hcontra

/-- Witness for the amended C2 on a concrete masked dataset. -/
theorem C2_frame_witness :
    interpolate_sv [] (.ds dsPreexisting) .linear false
        = .ok (interp_core dsPreexisting .linear false)
    ∧ getEntry? (interp_core dsPreexisting .linear false).data_vars "Sv"
        = getEntry? dsPreexisting.data_vars "Sv"
    ∧ (interp_core dsPreexisting .linear false).attrs = dsPreexisting.attrs := by
  have hok : interpolate_sv [] (.ds dsPreexisting) .linear false
      = .ok (interp_core dsPreexisting .linear false) :=
    interpolate_sv_ok dsPreexisting .linear false rfl rfl
  have h := C2_frame dsPreexisting .linear false (interp_core dsPreexisting .linear false) hok
  exact ⟨hok, h.1, h.2.2.2.2.1⟩

/-! ## All-NaN policy (C4) -/

theorem masked_sv_getD_allNaN (d : Dataset) (c : Nat)
    (h : gridAllNaN ((getSvArr d).getD c []) = true) :
    gridAllNaN ((masked_sv d).getD c []) = true := by
  unfold masked_sv
  cases combinedMask d with
  | none => exact h
  | some mk => exact getD_zipWith_mask mk c h

theorem interp_arr_getD_allNaN (d : Dataset) (m : InterpMethod) (e : Bool) (c : Nat)
    (h : gridAllNaN ((getSvArr d).getD c []) = true) :
    gridAllNaN ((interp_arr d m e).getD c []) = true := by
  have h0 := masked_sv_getD_allNaN d c h
  unfold interp_arr
  rw [getD_map_of_nil _ _ c ([] : Grid2) ([] : Grid2) rfl,
    getD_map_of_nil _ _ c ([] : Grid2) ([] : Grid2) rfl,
    getD_map_of_nil _ _ c ([] : Grid2) ([] : Grid2) rfl]
  exact gridAllNaN_map_linear_to_db
    (interpolate_channel_allNone (gridAllNaN_map_db_to_linear h0) m e)

/-- C4: an accepted dataset whose `Sv` is entirely NaN is interpolated
without error, the resulting `Sv_interpolated` being entirely NaN; and
every entirely-NaN channel slice of any accepted dataset yields an
entirely-NaN channel slice in `Sv_interpolated`. -/
theorem C4_all_nan (d : Dataset) (m : InterpMethod) (e : Bool)
    (h1 : (getEntry? d.data_vars "Sv").isSome = true)
    (h2 : (getEntry? d.dims "channel").isSome = true) :
    interpolate_sv [] (.ds d) m e = .ok (interp_core d m e)
    ∧ (∀ c, gridAllNaN ((getSvArr d).getD c []) = true →
        gridAllNaN ((getVarArrD (interp_core d m e) "Sv_interpolated").getD c []) = true)
    ∧ (arrAllNaN (getSvArr d) = true →
        arrAllNaN (getVarArrD (interp_core d m e) "Sv_interpolated") = true) := by
  refine ⟨interpolate_sv_ok d m e h1 h2, ?_, ?_⟩
  · intro c hc
    rw [interp_core_svI]
    exact interp_arr_getD_allNaN d m e c hc
  · intro hall
    rw [interp_core_svI]
    rw [arrAllNaN_iff_getD] at hall ⊢
    exact fun c => interp_arr_getD_allNaN d m e c (hall c)

/-- A concrete dataset whose `Sv` is entirely NaN. -/
def dsAllNaN : Dataset :=
  ⟨[("Sv", .farr [[[none, none]], [[none, none]]])], [],
   [("ping_time", 2), ("channel", 2)], []⟩

/-- Witness for C4 on a concrete all-NaN dataset. -/
theorem C4_all_nan_witness :
    interpolate_sv [] (.ds dsAllNaN) .linear false
        = .ok (interp_core dsAllNaN .linear false)
    ∧ arrAllNaN (getVarArrD (interp_core dsAllNaN .linear false) "Sv_interpolated") = true := by
  have h := C4_all_nan dsAllNaN .linear false rfl rfl
  exact ⟨h.1, h.2.2 rfl⟩

/-! ## Determinism (C5) -/

/-- Deep copy of a variable payload (xarray `copy(deep=True)`): the arrays
are rebuilt element by element. -/
def deepCopyVar : VarData → VarData
  | .farr a => .farr (a.map (fun g => g.map (fun row => row.map (fun v => v.map id))))
  | .barr b => .barr (b.map (fun g => g.map (fun row => row.map id)))

/-- Deep copy of a dataset: every variable, coordinate, dimension and
attribute entry is rebuilt. -/
def deep_copy (d : Dataset) : Dataset :=
  ⟨d.data_vars.map (fun p => (p.1, deepCopyVar p.2)),
   d.coords.map (fun p => (p.1, p.2.map (fun v => v.map id))),
   d.dims.map (fun p => (p.1, p.2)),
   d.attrs.map (fun p => (p.1, p.2))⟩

theorem optionMapId (v : EVal) : v.map id = v := by cases v <;> rfl

theorem seriesMapId (r : Series) : r.map (fun v => v.map id) = r := by
  induction r with
  | nil => rfl
  | cons x t ih => simp [optionMapId, ih]

theorem deepCopyVar_eq (v : VarData) : deepCopyVar v = v := by
  cases v with
  | farr a =>
    simp only [deepCopyVar]
    congr 1
    induction a with
    | nil => rfl
    | cons g t ih =>
      simp only [List.map_cons, ih, List.cons.injEq, and_true]
      induction g with
      | nil => rfl
      | cons r u ihg => simp [seriesMapId, ihg]
  | barr b =>
    simp [deepCopyVar, List.map_id]

theorem deep_copy_eq (d : Dataset) : deep_copy d = d := by
  cases d with
  | mk dv co di at_ =>
    simp [deep_copy, deepCopyVar_eq]

/-- C5: interpolation is deterministic — running `interpolate_sv` on a deep
copy of a masked dataset gives exactly the result of running it on the
dataset itself, so two independent deep copies give identical
`Sv_interpolated` arrays. -/
theorem C5_deterministic (d : Dataset) (m : InterpMethod) (e : Bool) :
    interpolate_sv [] (.ds (deep_copy d)) m e = interpolate_sv [] (.ds d) m e
    ∧ getVarArrD (interp_core (deep_copy d) m e) "Sv_interpolated"
        = getVarArrD (interp_core d m e) "Sv_interpolated" := by
  rw [deep_copy_eq]
  exact ⟨rfl, rfl⟩

/-! ## Validation errors (C6) -/

/-- C6: a path that is absent from the filesystem, or that names neither of
the two supported container formats, raises the file-not-found error; a
dataset lacking the `Sv` variable or lacking the `channel` dimension raises
the corresponding missing-key error, and no interpolation result is
produced in either case. -/
theorem C6_validation_errors :
    (∀ (fs : List (String × Dataset)) (p : String) (m : InterpMethod) (e : Bool),
        getEntry? fs p = none →
        interpolate_sv fs (.path p) m e = .error .fileNotFound)
    ∧ (∀ (fs : List (String × Dataset)) (p : String) (m : InterpMethod) (e : Bool),
        strEndsWith p ".nc" = false → strEndsWith p ".zarr" = false →
        interpolate_sv fs (.path p) m e = .error .fileNotFound)
    ∧ (∀ (fs : List (String × Dataset)) (d : Dataset) (m : InterpMethod) (e : Bool),
        getEntry? d.data_vars "Sv" = none →
        interpolate_sv fs (.ds d) m e = .error (.keyError "Sv"))
    ∧ (∀ (fs : List (String × Dataset)) (d : Dataset) (m : InterpMethod) (e : Bool),
        (getEntry? d.data_vars "Sv").isSome = true →
        getEntry? d.dims "channel" = none →
        interpolate_sv fs (.ds d) m e = .error (.keyError "channel")) := by
  refine ⟨?_, ?_, ?_, ?_⟩
  · intro fs p m e h
    by_cases hext : (strEndsWith p ".nc" || strEndsWith p ".zarr") = true
    · simp [interpolate_sv, load_input, hext, h]
    · simp only [Bool.not_eq_true] at hext
      simp [interpolate_sv, load_input, hext]
  · intro fs p m e h1 h2
    simp [interpolate_sv, load_input, h1, h2]
  · intro fs d m e h
    simp [interpolate_sv, load_input, validate_structure, h]
  · intro fs d m e h1 h2
    obtain ⟨v, hv⟩ := Option.isSome_iff_exists.mp h1
    simp [interpolate_sv, load_input, validate_structure, hv, h2]

/-- A concrete dataset lacking the `Sv` variable. -/
def dsNoSv : Dataset :=
  ⟨[("Not_Sv", .farr [])], [], [("ping_time", 5), ("channel", 5)], []⟩

/-- A concrete dataset lacking the `channel` dimension. -/
def dsNoChannel : Dataset :=
  ⟨[("Sv", .farr [])], [], [("ping_time", 5)], []⟩

/-- Witness for C6 at concrete invalid inputs. -/
theorem C6_validation_errors_witness :
    interpolate_sv [] (.path "invalid_input") .linear false = .error .fileNotFound
    ∧ interpolate_sv [] (.path "non_existent_file.nc") .linear false = .error .fileNotFound
    ∧ interpolate_sv [] (.ds dsNoSv) .linear false = .error (.keyError "Sv")
    ∧ interpolate_sv [] (.ds dsNoChannel) .linear false = .error (.keyError "channel") := by
  refine ⟨C6_validation_errors.2.1 [] "invalid_input" .linear false (by decide) (by decide),
    C6_validation_errors.1 [] "non_existent_file.nc" .linear false rfl,
    C6_validation_errors.2.2.1 [] dsNoSv .linear false rfl,
    C6_validation_errors.2.2.2 [] dsNoChannel .linear false rfl rfl⟩

/-! ## Concrete interpolation scenario (C1) -/

/-- The sample dataset of the tests: `Sv = [[10, 20], [30, 40]]` over
`ping_time = [1, 2]`, `channel = [1, 2]`, with the attached mask
`mask_transient = [[True, False], [False, True]]` (dims ping_time ×
channel), stored here in the canonical channel × range_sample × ping_time
layout with a singleton range_sample axis. -/
noncomputable def sampleDatasetWithMask : Dataset :=
  ⟨[("Sv", .farr [[[some 10, some 30]], [[some 20, some 40]]]),
    ("mask_transient", .barr [[[true, false]], [[false, true]]])],
   [("channel", [some 1, some 2]), ("ping_time", [some 1, some 2])],
   [("ping_time", 2), ("channel", 2)],
   []⟩

theorem sample_masked_sv :
    masked_sv sampleDatasetWithMask = [[[none, some 30]], [[some 20, none]]] := rfl

theorem sample_interp_entry :
    (((interp_arr sampleDatasetWithMask .linear false).getD 0 []).getD 0 []).getD 0 none
      = linear_to_db (some ((10 : ℝ) ^ ((30 : ℝ) / 10))) := rfl

/-- C1: on the tests' sample dataset with the attached `mask_transient`,
`interpolate_sv` succeeds, the output contains `Sv_interpolated` as a data
variable, and the masked entry at (ping_time = 1, channel = 1) — index
(channel 0, range 0, ping 0) — is no longer NaN, because it has a valid
neighbor along ping_time. -/
theorem C1_concrete_scenario :
    interpolate_sv [] (.ds sampleDatasetWithMask) .linear false
        = .ok (interp_core sampleDatasetWithMask .linear false)
    ∧ (getEntry? (interp_core sampleDatasetWithMask .linear false).data_vars
        "Sv_interpolated").isSome = true
    ∧ (((getVarArrD (interp_core sampleDatasetWithMask .linear false)
          "Sv_interpolated").getD 0 []).getD 0 []).getD 0 none ≠ none := by
  refine ⟨interpolate_sv_ok sampleDatasetWithMask .linear false rfl rfl, ?_, ?_⟩
  · rw [interp_core_new_var]
    rfl
  · rw [interp_core_svI, sample_interp_entry,
      linear_to_db_of_pos (db_to_linear_pos 30)]
    simp

/-! ## Grid regridder (spec 4.5) -/

/-- The echo-range values of one channel at the first ping, one per range
bin (xarray `echo_range.isel(channel=ch)` at ping index 0). -/
def firstPingEchoRange (d : Dataset) (ch : Nat) : List EVal :=
  ((getVarArrD d "echo_range").getD ch []).map (fun row => row.getD 0 none)

/-- Consecutive increments of a list of values. -/
def pairDiffs (xs : List ℝ) : List ℝ := List.zipWith (fun a b => b - a) xs xs.tail

/-- Modelled from the spec: the characteristic range-bin spacing of a
channel — the mean increment of its echo-range values; `none` when the
channel has fewer than two range samples. -/
noncomputable def mean_increment (xs : List ℝ) : Option ℝ :=
  match pairDiffs xs with
  | [] => none
  | ds => some (ds.sum / ds.length)

/-- The size of the channel dimension. -/
def numChannels (d : Dataset) : Nat := (getEntry? d.dims "channel").getD 0

/-- The valid (non-NaN) echo-range values of a channel at the first ping. -/
def channelRangeValues (d : Dataset) (ch : Nat) : List ℝ :=
  (firstPingEchoRange d ch).filterMap id

/-- The characteristic spacing of every channel. -/
noncomputable def channelSpacings (d : Dataset) : List (Option ℝ) :=
  (List.range (numChannels d)).map (fun ch => mean_increment (channelRangeValues d ch))

/-- Modelled from the spec: a channel spacing from which no grid can be
derived — missing (single-sample range axis) or non-positive
(non-increasing range axis). -/
noncomputable def badSpacing : Option ℝ → Bool
  | none => true
  | some s => if s ≤ 0 then true else false

/-- Modelled from the spec: the Common Range Grid's spacing — the finest
(smallest) characteristic spacing among the channels. -/
noncomputable def minSpacing (d : Dataset) : ℝ :=
  match (channelSpacings d).filterMap id with
  | [] => 1
  | h :: t => t.foldl min h

/-- The upper extent of the Common Range Grid: the largest echo-range
value over all channels. -/
noncomputable def gridHi (d : Dataset) : ℝ :=
  ((List.range (numChannels d)).map
    (fun ch => (channelRangeValues d ch).foldl max 0)).foldl max 0

/-- Modelled from the spec: the Common Range Grid — an arithmetic grid
from zero with the finest spacing, covering the union of the channels'
extents. -/
noncomputable def commonGrid (d : Dataset) : List ℝ :=
  (List.range (Nat.ceil (gridHi d / minSpacing d) + 1)).map
    (fun i => (i : ℝ) * minSpacing d)

/-- The valid coordinate/value pairs of a range profile. -/
noncomputable def validPts (oldR : List ℝ) (col : Series) : List (ℝ × ℝ) :=
  (List.zip oldR col).filterMap (fun p => p.2.map (fun v => (p.1, v)))

/-- Coordinate-based one-dimensional interpolation at the target
coordinate `x0`, with the same neighbor discipline as the gap
interpolator: linear between enclosing valid points, clamped at the
boundary, NaN when no valid point exists. -/
noncomputable def interpCoordAt (pts : List (ℝ × ℝ)) (x0 : ℝ) : EVal :=
  match (pts.filter (fun q => if q.1 ≤ x0 then true else false)).getLast?,
        (pts.filter (fun q => if x0 ≤ q.1 then true else false)).head? with
  | some (xa, ya), some (xb, yb) =>
    if xb - xa ≤ 0 then some ya
    else some (ya + (yb - ya) * (x0 - xa) / (xb - xa))
  | some (_, ya), none => some ya
  | none, some (_, yb) => some yb
  | none, none => none

/-- Modelled from the spec: resample one channel's grid from its own range
coordinate onto the common grid, interpolating each ping's profile in the
linear-power domain. -/
noncomputable def resampleChannel (oldR newR : List ℝ) (g : Grid2) : Grid2 :=
  newR.map (fun x0 =>
    (List.range ((g.getD 0 []).length)).map (fun p =>
      linear_to_db (interpCoordAt
        (validPts oldR (g.map (fun row => db_to_linear (row.getD p none)))) x0)))

/-- Modelled from the spec: the regridding core — every channel's Sv is
resampled onto the Common Range Grid, the echo-range variable and the
range_sample coordinate take the grid's values, the range_sample dimension
its length; nothing else changes. -/
noncomputable def regrid_core (d : Dataset) : Dataset :=
  let grid := commonGrid d
  let sv := getSvArr d
  let newSv : Arr3 := (List.range (numChannels d)).map (fun ch =>
    resampleChannel (channelRangeValues d ch) grid (sv.getD ch []))
  let newEcho : Arr3 := (List.range (numChannels d)).map (fun ch =>
    grid.map (fun x0 =>
      (List.range (((sv.getD ch []).getD 0 []).length)).map (fun _ => some x0)))
  let d1 := setVar d "Sv" (.farr newSv)
  let d2 := setVar d1 "echo_range" (.farr newEcho)
  let d3 := setCoord d2 "range_sample" (grid.map some)
  { d3 with dims := setEntry d3.dims "range_sample" grid.length }

/-- Modelled from the spec: `regrid_dataset` — validate that the dataset
carries `Sv`, `echo_range` and a `range_sample` coordinate and dimension,
fail with a descriptive error when some channel's echo-range values cannot
produce a finite positive spacing, and otherwise regrid. -/
noncomputable def regrid_dataset (d : Dataset) : Except SvError Dataset :=
  if (getEntry? d.data_vars "Sv").isNone then .error (.keyError "Sv")
  else if (getEntry? d.data_vars "echo_range").isNone then .error (.keyError "echo_range")
  else if (getEntry? d.coords "range_sample").isNone then .error (.keyError "range_sample")
  else if (getEntry? d.dims "range_sample").isNone then .error (.keyError "range_sample")
  else if (channelSpacings d).any badSpacing then .error .ungriddable
  else .ok (regrid_core d)

theorem isSome_of_not_isNone {α : Type} {o : Option α} (h : ¬ o.isNone = true) :
    o.isSome = true := by
  cases o with
  | none => simp at h
  | some v => rfl

/-- C7: a successful regrid preserves the dimension names, the data
variable names, the coordinate names and the dataset attributes exactly;
every data variable other than `Sv` and `echo_range`, and every coordinate
other than `range_sample`, is unchanged. -/
theorem C7_regrid_frame (d d' : Dataset) (h : regrid_dataset d = .ok d') :
    entryKeys d'.dims = entryKeys d.dims
    ∧ entryKeys d'.data_vars = entryKeys d.data_vars
    ∧ entryKeys d'.coords = entryKeys d.coords
    ∧ d'.attrs = d.attrs
    ∧ (∀ n, n ≠ "Sv" → n ≠ "echo_range" →
        getEntry? d'.data_vars n = getEntry? d.data_vars n)
    ∧ (∀ n, n ≠ "range_sample" →
        getEntry? d'.coords n = getEntry? d.coords n) := by
  unfold regrid_dataset at h
  split_ifs at h with h1 h2 h3 h4 h5
  injection h with h
  subst h
  have hSv := isSome_of_not_isNone h1
  have hEcho := isSome_of_not_isNone h2
  have hCoord := isSome_of_not_isNone h3
  have hDim := isSome_of_not_isNone h4
  have hEcho1 : (getEntry? (setEntry d.data_vars "Sv"
      (.farr ((List.range (numChannels d)).map (fun ch =>
        resampleChannel (channelRangeValues d ch) (commonGrid d)
          ((getSvArr d).getD ch []))))) "echo_range").isSome = true := by
    rw [getEntry?_setEntry_ne _ _ _ _ (by decide)]
    exact hEcho
  refine ⟨?_, ?_, ?_, rfl, ?_, ?_⟩
  · simp only [regrid_core, setVar, setCoord]
    exact entryKeys_setEntry_of_present _ _ _ hDim
  · simp only [regrid_core, setVar, setCoord]
    rw [entryKeys_setEntry_of_present _ _ _ hEcho1,
      entryKeys_setEntry_of_present _ _ _ hSv]
  · simp only [regrid_core, setVar, setCoord]
    exact entryKeys_setEntry_of_present _ _ _ hCoord
  · intro n hn1 hn2
    simp only [regrid_core, setVar, setCoord]
    rw [getEntry?_setEntry_ne _ _ _ _ hn2, getEntry?_setEntry_ne _ _ _ _ hn1]
  · intro n hn
    simp only [regrid_core, setVar, setCoord]
    exact getEntry?_setEntry_ne _ _ _ _ hn

/-- A concrete regriddable dataset: one channel, two range samples with
echo range `[0, 1]`, one ping. -/
noncomputable def dsRegrid : Dataset :=
  ⟨[("Sv", .farr [[[some 0], [some 0]]]),
    ("echo_range", .farr [[[some 0], [some 1]]])],
   [("range_sample", [some 0, some 1])],
   [("channel", 1), ("ping_time", 1), ("range_sample", 2)],
   [("survey", "jr179")]⟩

theorem dsRegrid_spacings_good : (channelSpacings dsRegrid).any badSpacing = false := by
  have h1 : channelRangeValues dsRegrid 0 = [(0 : ℝ), 1] := rfl
  have h2 : numChannels dsRegrid = 1 := rfl
  have h3 : List.range 1 = [0] := rfl
  have h4 : mean_increment [(0 : ℝ), 1] = some 1 := by
    have h5 : pairDiffs [(0 : ℝ), 1] = [(1 : ℝ) - 0] := by
      simp [pairDiffs]
    simp only [mean_increment, h5, List.sum_cons, List.sum_nil, List.length_cons,
      List.length_nil, Nat.cast_one]
    norm_num
  have h6 : badSpacing (some (1 : ℝ)) = false := by
    norm_num [badSpacing]
  simp only [channelSpacings, h2, h3, List.map_cons, List.map_nil, h1, h4,
    List.any_cons, List.any_nil, h6, Bool.or_false]

theorem dsRegrid_ok : regrid_dataset dsRegrid = .ok (regrid_core dsRegrid) := by
  have g1 : (getEntry? dsRegrid.data_vars "Sv").isNone = false := rfl
  have g2 : (getEntry? dsRegrid.data_vars "echo_range").isNone = false := rfl
  have g3 : (getEntry? dsRegrid.coords "range_sample").isNone = false := rfl
  have g4 : (getEntry? dsRegrid.dims "range_sample").isNone = false := rfl
  simp only [regrid_dataset, g1, g2, g3, g4, dsRegrid_spacings_good,
    Bool.false_eq_true, if_false]

/-- Witness for C7 on a concrete regriddable dataset. -/
theorem C7_regrid_frame_witness :
    ∃ d', regrid_dataset dsRegrid = .ok d'
      ∧ entryKeys d'.dims = entryKeys dsRegrid.dims
      ∧ entryKeys d'.data_vars = entryKeys dsRegrid.data_vars
      ∧ entryKeys d'.coords = entryKeys dsRegrid.coords
      ∧ d'.attrs = dsRegrid.attrs := by
  have h := C7_regrid_frame dsRegrid (regrid_core dsRegrid) dsRegrid_ok
  exact ⟨regrid_core dsRegrid, dsRegrid_ok, h.1, h.2.1, h.2.2.1, h.2.2.2.1⟩

/-! ## Dataset enrichment (`sv_dataset_extension.py`) -/

/-- A keyword-argument value as passed through `**kwargs`. -/
inductive KwVal where
  | num (x : ℝ)
  | flag (b : Bool)
  | txt (s : String)

/-- An `EchoData` object holding raw data; `enrich_sv_dataset` never
consults its contents (the location and split-beam steps that would are
commented out in the source). -/
structure EchoData where
  raw_vars : List (String × VarData)

/-- The keyword names forwarded to `add_depth`. -/
def depth_keys : List String := ["depth_offset", "tilt", "downward"]

/-- The keyword names forwarded to `add_location`. -/
def location_keys : List String := ["nmea_sentence"]

/-- The keyword names forwarded to `add_splitbeam_angle`. -/
def splitbeam_keys : List String :=
  ["waveform_mode", "encode_mode", "pulse_compression", "storage_options", "return_dataset"]

/-- A numeric keyword argument, with the callee's default when absent. -/
def argNum (args : List (String × KwVal)) (n : String) (dflt : ℝ) : ℝ :=
  match getEntry? args n with
  | some (.num x) => x
  | _ => dflt

/-- A boolean keyword argument, with the callee's default when absent. -/
def argFlag (args : List (String × KwVal)) (n : String) (dflt : Bool) : Bool :=
  match getEntry? args n with
  | some (.flag b) => b
  | _ => dflt

/-- Embedded from `sv_dataset_extension.py`, `add_depth`: the echo-range
profile of the first channel at the first ping time (selection by the
first coordinate value, i.e. index 0) is scaled by `±cos(tilt°)` and
shifted by `depth_offset`, and the result is assigned as the
`range_sample` coordinates of a new dataset, which is returned; the input
dataset is not mutated. -/
noncomputable def add_depth (Sv : Dataset) (depth_offset : ℝ) (tilt : ℝ)
    (downward : Bool) : Dataset :=
  let mult : ℝ := if downward then 1 else -1
  let selected_echo_range : List EVal :=
    ((getVarArrD Sv "echo_range").getD 0 []).map (fun row => row.getD 0 none)
  let depths := selected_echo_range.map (fun v =>
    v.map (fun x => mult * x * Real.cos (tilt / 180 * Real.pi) + depth_offset))
  setCoord Sv "range_sample" depths

/-- Embedded from `sv_dataset_extension.py`, `enrich_sv_dataset`: the
depth, location and split-beam keyword subsets are extracted; `add_depth`
is invoked on `enriched_sv` but its return value is never assigned (and
any exception it raises is caught and turned into a warning), the
location and split-beam steps are commented out in the source, and
`enriched_sv` — the input `sv` itself — is returned. -/
noncomputable def enrich_sv_dataset (sv : Dataset) (echodata : EchoData)
    (kwargs : List (String × KwVal)) : Dataset :=
  let depth_args := kwargs.filter (fun kv => depth_keys.contains kv.1)
  let _location_args := kwargs.filter (fun kv => location_keys.contains kv.1)
  let _splitbeam_args := kwargs.filter (fun kv => splitbeam_keys.contains kv.1)
  let enriched_sv := sv
  let _depth_result := add_depth enriched_sv (argNum depth_args "depth_offset" 0)
      (argNum depth_args "tilt" 0) (argFlag depth_args "downward" true)
  enriched_sv

/-- C9: `enrich_sv_dataset` returns the input dataset itself for every
dataset, EchoData object and keyword arguments — the depth coordinate
computed by `add_depth` is discarded because its non-mutating result is
never assigned, and the location and split-beam steps are disabled. -/
theorem C9_enrich_identity (sv : Dataset) (echodata : EchoData)
    (kwargs : List (String × KwVal)) :
    enrich_sv_dataset sv echodata kwargs = sv := rfl

/-! ## Background-noise removal defaults (`background_noise_remover.py`) -/

/-- Embedded from numpy `diff` on a float vector: consecutive differences,
NaN propagating. -/
def np_diff (xs : List EVal) : List EVal :=
  List.zipWith (fun a b =>
    match a, b with
    | some x, some y => some (y - x)
    | _, _ => none) xs xs.tail

/-- Embedded from numpy `nanmean`: the mean of the non-NaN entries, NaN
when there are none. -/
noncomputable def np_nanmean (xs : List EVal) : EVal :=
  match xs.filterMap id with
  | [] => none
  | vs => some (vs.sum / vs.length)

/-- Python `int()` truncation toward zero on a float. -/
noncomputable def truncInt (x : ℝ) : ℤ := if 0 ≤ x then ⌊x⌋ else ⌈x⌉

/-- Embedded from `background_noise_remover.py`: the per-channel values
`np.nanmean(np.diff(ds_Sv["echo_range"].isel(channel=ch).values[0, :]))`. -/
noncomputable def channelMeanDiffs (ds_Sv : Dataset) : List EVal :=
  (List.range (numChannels ds_Sv)).map
    (fun ch => np_nanmean (np_diff (firstPingEchoRange ds_Sv ch)))

/-- Minimum of a list of integers; `none` for the empty list (Python
`min([])` raises). -/
def minList? : List ℤ → Option ℤ
  | [] => none
  | h :: t => some (t.foldl min h)

/-- Embedded from `background_noise_remover.py`: the per-channel loop that
computes the default `range_sample_nums`, here running over the list of
per-channel mean increments.  Each iteration first raises `ValueError`
when the channel's mean increment is NaN, and then evaluates
`int(10 / mean_diff)`: at a zero mean increment `10 / 0.0` is infinite and
`int` of infinity raises `OverflowError`; otherwise the integer is
appended and the loop continues. -/
noncomputable def rangeSampleNumsFrom : List EVal → Except SvError (List ℤ)
  | [] => .ok []
  | none :: _ => .error (.valueError "range_sample_num is nan")
  | some v :: rest =>
    if v = 0 then .error (.overflowError "cannot convert float infinity to integer")
    else (rangeSampleNumsFrom rest).map (fun ns => truncInt (10 / v) :: ns)

/-- Embedded from `background_noise_remover.py`,
`apply_remove_background_noise`: when `range_sample_num` is not provided,
the per-channel loop computes the default values (raising `ValueError` at
a NaN mean increment and `OverflowError` at a zero one), and their minimum
is used.  The echopype `remove_background_noise` call is an external
collaborator and is taken as the function parameter
`remove_background_noise`. -/
noncomputable def apply_remove_background_noise
    (remove_background_noise : Dataset → ℤ → ℤ → ℝ → ℝ → Dataset)
    (ds_Sv : Dataset) (ping_num : ℤ) (range_sample_num : Option ℤ)
    (noise_max : ℝ) (SNR_threshold : ℝ) : Except SvError Dataset :=
  match range_sample_num with
  | some n => .ok (remove_background_noise ds_Sv ping_num n noise_max SNR_threshold)
  | none =>
    match rangeSampleNumsFrom (channelMeanDiffs ds_Sv) with
    | .error e => .error e
    | .ok nums =>
      match minList? nums with
      | some n => .ok (remove_background_noise ds_Sv ping_num n noise_max SNR_threshold)
      | none => .error (.valueError "empty sequence")

theorem rangeSampleNumsFrom_nan (mds : List EVal)
    (hz : ∀ md ∈ mds, md ≠ some 0)
    (hn : mds.any (fun md => md.isNone) = true) :
    rangeSampleNumsFrom mds = .error (.valueError "range_sample_num is nan") := by
  induction mds with
  | nil => simp at hn
  | cons md rest ih =>
    cases md with
    | none => rfl
    | some v =>
      have hv : v ≠ 0 := by
        intro hv0
        exact hz (some v) (List.mem_cons_self _ _) (by rw [hv0])
      have hn' : rest.any (fun md => md.isNone) = true := by
        simpa using hn
      have ihr := ih (fun md hmd => hz md (List.mem_cons_of_mem _ hmd)) hn'
      simp [rangeSampleNumsFrom, hv, ihr, Except.map]

theorem rangeSampleNumsFrom_ok (mds : List EVal)
    (hn : mds.any (fun md => md.isNone) = false)
    (hz : ∀ md ∈ mds, md ≠ some 0) :
    rangeSampleNumsFrom mds
      = .ok (mds.filterMap (fun md => md.map (fun v => truncInt (10 / v)))) := by
  induction mds with
  | nil => rfl
  | cons md rest ih =>
    cases md with
    | none => simp at hn
    | some v =>
      have hv : v ≠ 0 := by
        intro hv0
        exact hz (some v) (List.mem_cons_self _ _) (by rw [hv0])
      have hn' : rest.any (fun md => md.isNone) = false := by
        simpa using hn
      have ihr := ih hn' (fun md hmd => hz md (List.mem_cons_of_mem _ hmd))
      simp [rangeSampleNumsFrom, hv, ihr, Except.map]

theorem rangeSampleNumsFrom_zero (mds : List EVal)
    (hn : mds.any (fun md => md.isNone) = false)
    (hz : ∃ md ∈ mds, md = some 0) :
    rangeSampleNumsFrom mds
      = .error (.overflowError "cannot convert float infinity to integer") := by
  induction mds with
  | nil => simp at hz
  | cons md rest ih =>
    cases md with
    | none => simp at hn
    | some v =>
      by_cases hv : v = 0
      · simp [rangeSampleNumsFrom, hv]
      · have hn' : rest.any (fun md => md.isNone) = false := by
          simpa using hn
        have hz' : ∃ md ∈ rest, md = some 0 := by
          obtain ⟨md, hmd, hmd0⟩ := hz
          rcases List.mem_cons.mp hmd with h | h
          · rw [h] at hmd0
            injection hmd0 with hmd0
            exact absurd hmd0 hv
          · exact ⟨md, h, hmd0⟩
        simp [rangeSampleNumsFrom, hv, ih hn' hz', Except.map]

/-- C10 (amended): with `range_sample_num` not provided and no channel's
mean increment zero, a NaN per-channel mean increment makes
`apply_remove_background_noise` raise `ValueError` — for every
noise-removal function, so before any noise removal is attempted; with no
NaN and no zero mean increment, the minimum over channels of
`int(10 / mean_increment)` is passed to the noise-removal call as the
default `range_sample_num`; and with no NaN but some zero mean increment,
`int(10 / 0.0)` — `int` of infinity — raises `OverflowError`. -/
theorem C10_default_range_sample_num
    (rbn : Dataset → ℤ → ℤ → ℝ → ℝ → Dataset) (ds : Dataset)
    (pn : ℤ) (nm snr : ℝ) :
    ((∀ md ∈ channelMeanDiffs ds, md ≠ some 0) →
      (channelMeanDiffs ds).any (fun md => md.isNone) = true →
      apply_remove_background_noise rbn ds pn none nm snr
        = .error (.valueError "range_sample_num is nan"))
    ∧ (∀ n, (channelMeanDiffs ds).any (fun md => md.isNone) = false →
        (∀ md ∈ channelMeanDiffs ds, md ≠ some 0) →
        minList? ((channelMeanDiffs ds).filterMap
          (fun md => md.map (fun v => truncInt (10 / v)))) = some n →
        apply_remove_background_noise rbn ds pn none nm snr
          = .ok (rbn ds pn n nm snr))
    ∧ ((channelMeanDiffs ds).any (fun md => md.isNone) = false →
        (∃ md ∈ channelMeanDiffs ds, md = some 0) →
        apply_remove_background_noise rbn ds pn none nm snr
          = .error (.overflowError "cannot convert float infinity to integer")) := by
  refine ⟨?_, ?_, ?_⟩
  · intro hz hn
    simp [apply_remove_background_noise, rangeSampleNumsFrom_nan _ hz hn]
  · intro n hn hz hmin
    simp [apply_remove_background_noise, rangeSampleNumsFrom_ok _ hn hz, hmin]
  · intro hn hz
    simp [apply_remove_background_noise, rangeSampleNumsFrom_zero _ hn hz]

/-- A concrete dataset with one channel and echo range `[0, 1, 2]`. -/
noncomputable def dsNoise : Dataset :=
  ⟨[("Sv", .farr [[[some 0], [some 0], [some 0]]]),
    ("echo_range", .farr [[[some 0], [some 1], [some 2]]])], [],
   [("channel", 1), ("ping_time", 1), ("range_sample", 3)], []⟩

theorem dsNoise_meanDiffs : channelMeanDiffs dsNoise = [some 1] := by
  have h0 : channelMeanDiffs dsNoise
      = [np_nanmean (np_diff (firstPingEchoRange dsNoise 0))] := rfl
  have h1 : np_diff (firstPingEchoRange dsNoise 0)
      = [some ((1 : ℝ) - 0), some ((2 : ℝ) - 1)] := rfl
  have h2 : np_nanmean [some ((1 : ℝ) - 0), some ((2 : ℝ) - 1)]
      = some ((((1 : ℝ) - 0) + (((2 : ℝ) - 1) + 0)) / ((2 : ℕ) : ℝ)) := rfl
  rw [h0, h1, h2]
  norm_num

/-- Witness for C10: a concrete dataset whose default `range_sample_num`
computes to `int(10 / 1) = 10`. -/
theorem C10_default_range_sample_num_witness :
    apply_remove_background_noise (fun d _ _ _ _ => d) dsNoise 40 none (-125) 3
      = .ok dsNoise := by
  have htr : truncInt ((10 : ℝ) / 1) = 10 := by
    norm_num [truncInt]
  have ha : (channelMeanDiffs dsNoise).any (fun md => md.isNone) = false := by
    rw [dsNoise_meanDiffs]
    rfl
  have hz : ∀ md ∈ channelMeanDiffs dsNoise, md ≠ some 0 := by
    rw [dsNoise_meanDiffs]
    intro md hmd
    rw [List.mem_singleton.mp hmd]
    intro hcontra
    injection hcontra with hcontra
    norm_num at hcontra
  have hb : minList? ((channelMeanDiffs dsNoise).filterMap
      (fun md => md.map (fun v => truncInt (10 / v)))) = some 10 := by
    rw [dsNoise_meanDiffs]
    have : ([some (1 : ℝ)].filterMap (fun md => md.map (fun v => truncInt (10 / v))))
        = [truncInt ((10 : ℝ) / 1)] := rfl
    rw [this, htr]
    rfl
  exact (C10_default_range_sample_num (fun d _ _ _ _ => d) dsNoise 40 (-125) 3).2.1
    10 ha hz hb

/-- A concrete dataset with one channel and the constant first-ping echo
range `[5, 5]`, whose mean increment is exactly zero (and not NaN). -/
noncomputable def dsZeroDiff : Dataset :=
  ⟨[("Sv", .farr [[[some 0], [some 0]]]),
    ("echo_range", .farr [[[some 5], [some 5]]])], [],
   [("channel", 1), ("ping_time", 1), ("range_sample", 2)], []⟩

theorem dsZeroDiff_meanDiffs : channelMeanDiffs dsZeroDiff = [some 0] := by
  have h0 : channelMeanDiffs dsZeroDiff
      = [np_nanmean (np_diff (firstPingEchoRange dsZeroDiff 0))] := rfl
  have h1 : np_diff (firstPingEchoRange dsZeroDiff 0)
      = [some ((5 : ℝ) - 5)] := rfl
  have h2 : np_nanmean [some ((5 : ℝ) - 5)]
      = some ((((5 : ℝ) - 5) + 0) / ((1 : ℕ) : ℝ)) := rfl
  rw [h0, h1, h2]
  norm_num

/-- Counterexample to C10 as stated: on a dataset whose single channel has
the constant first-ping echo range `[5, 5]`, no mean increment is NaN, yet
`apply_remove_background_noise` does not use `min(int(10 / mean_diff))` —
`int(10 / 0.0)` is `int` of infinity, which raises `OverflowError`, so no
noise removal happens for any noise-removal function. -/
theorem C10_counterexample :
    (channelMeanDiffs dsZeroDiff).any (fun md => md.isNone) = false
    ∧ ∀ rbn : Dataset → ℤ → ℤ → ℝ → ℝ → Dataset,
        apply_remove_background_noise rbn dsZeroDiff 40 none (-125) 3
          = .error (.overflowError "cannot convert float infinity to integer") := by
  constructor
  · rw [dsZeroDiff_meanDiffs]
    rfl
  · intro rbn
    have hz : rangeSampleNumsFrom (channelMeanDiffs dsZeroDiff)
        = .error (.overflowError "cannot convert float infinity to integer") := by
      rw [dsZeroDiff_meanDiffs]
      simp [rangeSampleNumsFrom]
    simp [apply_remove_background_noise, hz]
